import Mathlib

/-!
# snippetbox: the user model (`internal/models/users.go`)

A shallow embedding of the five methods of `UserModel` (`Insert`, `Authenticate`,
`Exists`, `Retrieve`, `ChangePassword`) over an explicit state: the rows of the table
`users` and the trace of the calls a method makes to its collaborators (the database
handle, the bcrypt package, standard output).

Go strings and byte slices are both modelled by `String` (the conversions `[]byte(s)`
and `string(b)` are the identity on the bytes), Go `int` by `Int`, `time.Time` by a
number of seconds.  The two libraries the file imports are not part of it:

* the bcrypt package is a parameter (`Bcrypt`), its contract a hypothesis where a
  statement needs one;
* the database is a table with a primary key on `id` and the unique key
  `users_uc_email` on `email`, compared exactly; what a round trip may suffer beyond
  a violated key (a lost connection, another server error) comes from `Env`.
-/

namespace models

/-! ## Errors -/

/-- Modelled from the spec: the three sentinel errors `ErrNoRecord`,
`ErrInvvalidCredentials` and `ErrDuplicateEmail` are declared in a file of the package
that is not at hand (the kinds NotFound, InvalidCredentials and DuplicateIdentifier of
the error taxonomy); they are pairwise different values, different from every library
error.  The other constructors are the errors of the libraries `users.go` tests for. -/
inductive Err where
  | ErrNoRecord
  | ErrInvvalidCredentials
  | ErrDuplicateEmail
  /-- The error `sql.ErrNoRows` -/
  | ErrNoRows
  /-- The error `bcrypt.ErrMismatchedHashAndPassword` -/
  | ErrMismatchedHashAndPassword
  /-- Any other error of the bcrypt package (hash too short, password too long, ...) -/
  | bcrypt (msg : String)
  /-- A `*mysql.MySQLError` with its fields `Number` and `Message` -/
  | MySQLError (Number : Nat) (Message : String)
  /-- Any other error of `database/sql` or of the driver -/
  | driver (msg : String)
  deriving DecidableEq, Repr

/-- What a database round trip can suffer apart from what the table itself decides. -/
inductive Fault where
  | MySQLError (Number : Nat) (Message : String)
  | driver (msg : String)
  deriving DecidableEq, Repr

/-- The error value a fault is reported as. -/
def Fault.toErr : Fault → Err
  | .MySQLError n msg => .MySQLError n msg
  | .driver msg => .driver msg

/-! ## The bcrypt package -/

/-- Outcome of `bcrypt.CompareHashAndPassword`. -/
inductive Verdict where
  /-- The value `nil` -/
  | ok
  /-- The error `ErrMismatchedHashAndPassword` -/
  | mismatch
  /-- Any other error -/
  | fail (msg : String)
  deriving DecidableEq, Repr

/-- The two functions of `golang.org/x/crypto/bcrypt` that `users.go` calls.
`GenerateFromPassword salt password cost` is the hash derived with the random salt
`salt`, or the message of the error. -/
structure Bcrypt where
  GenerateFromPassword : (salt : Nat) → (password : String) → (cost : Nat) → Except String String
  CompareHashAndPassword : (hashedPassword : String) → (password : String) → Verdict

/-- The primitive verifies a password against every hash it derived from it. -/
def Bcrypt.VerifiesOwnHash (B : Bcrypt) : Prop :=
  ∀ salt password cost h, B.GenerateFromPassword salt password cost = .ok h →
    B.CompareHashAndPassword h password = .ok

/-! ## State -/

/-- A row of the table `users`. -/
structure Row where
  id : Int
  name : String
  email : String
  hashed_password : String
  created : Nat
  deriving DecidableEq, Repr

/-- The struct `User`. -/
structure User where
  ID : Int
  Name : String
  Email : String
  HashedPassword : String
  Created : Nat
  deriving DecidableEq, Repr

/-- The zero value `User{}`. -/
def User.zero : User := ⟨0, "", "", "", 0⟩

/-- A call a method makes to one of its collaborators. -/
inductive Event where
  | QueryRow (stmt : String)
  | Exec (stmt : String)
  | GenerateFromPassword (password : String) (cost : Nat)
  | CompareHashAndPassword (hashedPassword password : String)
  | Println (a : String)
  deriving DecidableEq, Repr

/-- The state a method runs in: the rows of `users` behind `m.DB`, and the calls made
so far. -/
structure Sys where
  users : List Row
  trace : List Event
  deriving DecidableEq, Repr

/-- What one call of a method reads from outside: the salt bcrypt draws, the value of
`UTC_TIMESTAMP()`, and the fault (if any) of its query and of its statement. -/
structure Env where
  salt : Nat
  now : Nat
  queryFault : Option Fault
  execFault : Option Fault
  deriving DecidableEq, Repr

/-- The keys of the table: `id` is the primary key, `email` is unique. -/
def WF (users : List Row) : Prop :=
  (users.map Row.id).Nodup ∧ (users.map Row.email).Nodup

instance (users : List Row) : Decidable (WF users) := by
  unfold WF; infer_instance

/-- The text written to standard output by the calls of a trace. -/
def stdout : List Event → String
  | [] => ""
  | .Println a :: t => a ++ "\n" ++ stdout t
  | _ :: t => stdout t

/-- The number of calls of `bcrypt.CompareHashAndPassword` in a trace. -/
def compares : List Event → Nat
  | [] => 0
  | .CompareHashAndPassword _ _ :: t => compares t + 1
  | _ :: t => compares t

/-- The number of statements executed (`m.DB.Exec`) in a trace. -/
def execs : List Event → Nat
  | [] => 0
  | .Exec _ :: t => execs t + 1
  | _ :: t => execs t

/-! ## The collaborators -/

/-- Whether `sub` occurs in `l` as a contiguous block. -/
def occursIn (sub : List Char) : List Char → Bool
  | [] => sub.isPrefixOf []
  | c :: cs => sub.isPrefixOf (c :: cs) || occursIn sub cs

/-- The function `strings.Contains`. -/
def strings.Contains (s substr : String) : Bool := occursIn substr.data s.data

/-- The call `m.DB.QueryRow(stmt, args...).Scan(dest...)`, where `sel` gives the first
row the statement selects: the fault of the round trip, or `sql.ErrNoRows` when no
row is selected, or the scanned columns. -/
def QueryRowScan {α : Type} (env : Env) (stmt : String) (sel : List Row → Option α)
    (s : Sys) : Except Err α × Sys :=
  let s1 : Sys := { s with trace := s.trace ++ [Event.QueryRow stmt] }
  match env.queryFault with
  | some f => (.error f.toErr, s1)
  | none =>
    match sel s.users with
    | none => (.error Err.ErrNoRows, s1)
    | some a => (.ok a, s1)

/-- The call `m.DB.Exec(stmt, args...)`, where `write` is what the statement does to
the table: the fault of the round trip, or the error of the table (nothing is
written then), or the written table. -/
def Exec (env : Env) (stmt : String) (write : List Row → Except Err (List Row))
    (s : Sys) : Option Err × Sys :=
  let s1 : Sys := { s with trace := s.trace ++ [Event.Exec stmt] }
  match env.execFault with
  | some f => (some f.toErr, s1)
  | none =>
    match write s.users with
    | .error e => (some e, s1)
    | .ok users => (none, { s1 with users := users })

/-- The value the `AUTO_INCREMENT` primary key gives the next row. -/
def nextId (users : List Row) : Int :=
  (users.map Row.id).foldr max 0 + 1

/-- The statement `INSERT INTO users (name, email, hashed_password, created)
VALUES(?,?,?,UTC_TIMESTAMP())`: error 1062 on the key `users_uc_email` when a row has
the email, else one more row. -/
def insertUser (now : Nat) (name email hashed_password : String) (users : List Row) :
    Except Err (List Row) :=
  if users.any (fun r => r.email == email) then
    .error (Err.MySQLError 1062
      ("Duplicate entry '" ++ email ++ "' for key '" ++ "users_uc_email" ++ "'"))
  else
    .ok (users ++ [⟨nextId users, name, email, hashed_password, now⟩])

/-- The statement `UPDATE users SET hashed_password = ? WHERE id = ?`. -/
def updateHash (hashed_password : String) (id : Int) (users : List Row) :
    Except Err (List Row) :=
  .ok (users.map fun r => if r.id == id then { r with hashed_password := hashed_password } else r)

/-- The call `bcrypt.GenerateFromPassword([]byte(password), cost)`. -/
def GenerateFromPassword (B : Bcrypt) (env : Env) (password : String) (cost : Nat)
    (s : Sys) : Except Err String × Sys :=
  let s1 : Sys := { s with trace := s.trace ++ [Event.GenerateFromPassword password cost] }
  match B.GenerateFromPassword env.salt password cost with
  | .error msg => (.error (Err.bcrypt msg), s1)
  | .ok h => (.ok h, s1)

/-- The call `bcrypt.CompareHashAndPassword(hashedPassword, []byte(password))`. -/
def CompareHashAndPassword (B : Bcrypt) (hashedPassword password : String)
    (s : Sys) : Option Err × Sys :=
  let s1 : Sys :=
    { s with trace := s.trace ++ [Event.CompareHashAndPassword hashedPassword password] }
  match B.CompareHashAndPassword hashedPassword password with
  | .ok => (none, s1)
  | .mismatch => (some Err.ErrMismatchedHashAndPassword, s1)
  | .fail msg => (some (Err.bcrypt msg), s1)

/-- The call `fmt.Println(a)`. -/
def Println (a : String) (s : Sys) : Sys :=
  { s with trace := s.trace ++ [Event.Println a] }

/-! ## The methods of `UserModel` -/

/-- The method `Insert(name, email, password string) error`. -/
def UserModel.Insert (B : Bcrypt) (env : Env) (name email password : String) (s : Sys) :
    Option Err × Sys :=
  match GenerateFromPassword B env password 12 s with
  | (.error err, s1) => (some err, s1)
  | (.ok hashedPassword, s1) =>
    let stmt := "INSERT INTO users (name, email, hashed_password, created)\n\tVALUES(?,?,?,UTC_TIMESTAMP())"
    match Exec env stmt (insertUser env.now name email hashedPassword) s1 with
    | (some err, s2) =>
      match err with
      | .MySQLError Number Message =>
        if Number = 1062 && strings.Contains Message "users_uc_email" then
          (some Err.ErrDuplicateEmail, s2)
        else (some err, s2)
      | _ => (some err, s2)
    | (none, s2) => (none, s2)

/-- The method `Authenticate(email, password string) (int, error)`. -/
def UserModel.Authenticate (B : Bcrypt) (env : Env) (email password : String) (s : Sys) :
    (Int × Option Err) × Sys :=
  let stmt := "SELECT id, hashed_password FROM users WHERE email = ?"
  match QueryRowScan env stmt
      (fun users => (users.find? fun r => r.email == email).map
        fun r => (r.id, r.hashed_password)) s with
  | (.error err, s1) =>
    if err = Err.ErrNoRows then ((0, some Err.ErrInvvalidCredentials), s1)
    else ((0, some err), s1)
  | (.ok (id, hashedPassword), s1) =>
    match CompareHashAndPassword B hashedPassword password s1 with
    | (some err, s2) =>
      if err = Err.ErrMismatchedHashAndPassword then
        ((0, some Err.ErrInvvalidCredentials), s2)
      else ((0, some err), s2)
    | (none, s2) => ((id, none), s2)

/-- The method `Exists(id int) (bool, error)`. -/
def UserModel.Exists (env : Env) (id : Int) (s : Sys) : (Bool × Option Err) × Sys :=
  let stmt := "SELECT EXISTS(SELECT true FROM users WHERE id = ?)"
  match QueryRowScan env stmt (fun users => some (users.any fun r => r.id == id)) s with
  | (.error err, s1) => ((false, some err), s1)
  | (.ok found, s1) => ((found, none), s1)

/-- The method `Retrieve(id int) (*User, error)`. -/
def UserModel.Retrieve (env : Env) (id : Int) (s : Sys) : (Option User × Option Err) × Sys :=
  let stmt := "SELECT name, email, created FROM users WHERE id = ?"
  match QueryRowScan env stmt
      (fun users => (users.find? fun r => r.id == id).map
        fun r => (r.name, r.email, r.created)) s with
  | (.error err, s1) =>
    if err = Err.ErrNoRows then ((none, some Err.ErrNoRecord), s1)
    else ((none, some err), s1)
  | (.ok (name, email, created), s1) =>
    ((some { User.zero with Name := name, Email := email, Created := created }, none), s1)

/-- The method `ChangePassword(id int, password, newpassword string) error`. -/
def UserModel.ChangePassword (B : Bcrypt) (env : Env) (id : Int) (password newpassword : String)
    (s : Sys) : Option Err × Sys :=
  let stmt1 := "SELECT hashed_password FROM users WHERE id = ?"
  let scanned := QueryRowScan env stmt1
    (fun users => (users.find? fun r => r.id == id).map fun r => r.hashed_password) s
  let oldPassword : String :=
    match scanned.1 with
    | .ok h => h
    | .error _ => ""
  let s1 := Println oldPassword scanned.2
  match scanned.1 with
  | .error err =>
    if err = Err.ErrNoRows then (some Err.ErrNoRecord, s1) else (some err, s1)
  | .ok _ =>
    match CompareHashAndPassword B oldPassword password s1 with
    | (some err, s2) =>
      if err = Err.ErrMismatchedHashAndPassword then (some Err.ErrInvvalidCredentials, s2)
      else (some err, s2)
    | (none, s2) =>
      match GenerateFromPassword B env newpassword 12 s2 with
      | (.error err, s3) => (some err, s3)
      | (.ok hashedPassword, s3) =>
        let stmt := "UPDATE users SET hashed_password =  ? WHERE id = ?"
        match Exec env stmt (updateHash hashedPassword id) s3 with
        | (some err, s4) => (some err, s4)
        | (none, s4) => (none, s4)

/-! ## A bcrypt for examples -/

/-- A stand-in for bcrypt used to evaluate the methods on examples: the hash of a
password is the password behind a tag; as in the package, a password of more than 72
bytes is not hashed and a hash that is too short is an error. -/
def toy : Bcrypt where
  GenerateFromPassword := fun _ password _ =>
    if password.length > 72 then .error "bcrypt: password length exceeds 72 bytes"
    else .ok ("$2a$" ++ password)
  CompareHashAndPassword := fun hashedPassword password =>
    if hashedPassword.length < 4 then .fail "crypto/bcrypt: hashedSecret too short to be a bcrypted password"
    else if hashedPassword = "$2a$" ++ password then .ok
    else .mismatch

/-- An environment without faults. -/
def calm : Env := ⟨0, 1700000000, none, none⟩

/-- The empty table. -/
def empty : Sys := ⟨[], []⟩

/-- A table with one account. -/
def alice : Sys :=
  ⟨[⟨1, "Alice", "alice@example.com", "$2a$s3cret!", 1700000000⟩], []⟩

/-- A password of 73 bytes, which bcrypt does not hash. -/
def longPassword : String := String.mk (List.replicate 73 'a')

/-- An environment whose statement meets a lost connection. -/
def stormy : Env := ⟨0, 1700000000, none, some (Fault.driver "driver: bad connection")⟩

/-- The bytes the key schedule of bcrypt reads from a key: `n` bytes taken in turn,
starting again at the first byte whenever the key is used up (`blowfish.ExpandKey`). -/
def readCyclic (key : List Char) : Nat → List Char → List Char
  | 0, _ => []
  | n + 1, c :: rest => c :: readCyclic key n rest
  | n + 1, [] =>
    match key with
    | [] => []
    | c :: rest => c :: readCyclic key n rest

/-- The 72 bytes bcrypt reads from a password: the password with a NUL byte behind
it, read cyclically. -/
def keyBytes (password : String) : String :=
  String.mk (readCyclic (password.data ++ [Char.ofNat 0]) 72 (password.data ++ [Char.ofNat 0]))

/-- A stand-in for bcrypt that keeps how the package reads a password: the hash is
the 72 key bytes behind a tag, so that two passwords with the same key bytes have the
same hash; a password of more than 72 bytes is not hashed, a comparison has no such
bound. -/
def cyclic : Bcrypt where
  GenerateFromPassword := fun _ password _ =>
    if password.length > 72 then .error "bcrypt: password length exceeds 72 bytes"
    else .ok ("$2a$" ++ keyBytes password)
  CompareHashAndPassword := fun hashedPassword password =>
    if hashedPassword.length < 4 then .fail "crypto/bcrypt: hashedSecret too short to be a bcrypted password"
    else if hashedPassword = "$2a$" ++ keyBytes password then .ok
    else .mismatch

/-- A table with one account, whose password `a` was hashed by `cyclic`. -/
def ann : Sys :=
  ⟨[⟨1, "Ann", "ann@example.com", "$2a$" ++ keyBytes "a", 1700000000⟩], []⟩

/-! ## Lemmas on the table -/

theorem any_email_false {users : List Row} {email : String}
    (h : ∀ r ∈ users, r.email ≠ email) : users.any (fun r => r.email == email) = false := by
  simp only [List.any_eq_false, beq_iff_eq]
  exact fun r hr => h r hr

theorem find_email_none {users : List Row} {email : String}
    (h : ∀ r ∈ users, r.email ≠ email) : users.find? (fun r => r.email == email) = none := by
  simp only [List.find?_eq_none, beq_iff_eq]
  exact fun r hr => h r hr

theorem find_id_none {users : List Row} {id : Int}
    (h : ∀ r ∈ users, r.id ≠ id) : users.find? (fun r => r.id == id) = none := by
  simp only [List.find?_eq_none, beq_iff_eq]
  exact fun r hr => h r hr

theorem le_foldr_max (l : List Int) : ∀ x ∈ l, x ≤ l.foldr max 0 := by
  induction l with
  | nil => intro x hx; cases hx
  | cons a t ih =>
    intro x hx
    rcases List.mem_cons.mp hx with rfl | hx
    · exact le_max_left _ _
    · exact le_trans (ih x hx) (le_max_right _ _)

theorem id_lt_nextId {users : List Row} {r : Row} (hr : r ∈ users) : r.id < nextId users := by
  have := le_foldr_max (users.map Row.id) r.id (List.mem_map_of_mem _ hr)
  unfold nextId
  omega

/-! ## Evaluating the methods -/

theorem Insert_ok (B : Bcrypt) (env : Env) (name email password h : String) (s : Sys)
    (hfresh : ∀ r ∈ s.users, r.email ≠ email)
    (hhash : B.GenerateFromPassword env.salt password 12 = .ok h)
    (hexec : env.execFault = none) :
    UserModel.Insert B env name email password s =
      (none, ⟨s.users ++ [⟨nextId s.users, name, email, h, env.now⟩],
        s.trace ++ [Event.GenerateFromPassword password 12] ++
          [Event.Exec "INSERT INTO users (name, email, hashed_password, created)\n\tVALUES(?,?,?,UTC_TIMESTAMP())"]⟩) := by
  simp [UserModel.Insert, GenerateFromPassword, hhash, Exec, hexec, insertUser,
    any_email_false hfresh]

theorem Authenticate_found (B : Bcrypt) (env : Env) (email password : String) (s : Sys) (r : Row)
    (hquery : env.queryFault = none)
    (hfind : s.users.find? (fun r => r.email == email) = some r)
    (hcmp : B.CompareHashAndPassword r.hashed_password password = .ok) :
    (UserModel.Authenticate B env email password s).1 = (r.id, none) := by
  simp [UserModel.Authenticate, QueryRowScan, hquery, hfind, CompareHashAndPassword, hcmp]

theorem find_key_of_mem {κ : Type} [DecidableEq κ] (f : Row → κ) {users : List Row}
    (h : (users.map f).Nodup) {r : Row} (hr : r ∈ users) :
    users.find? (fun x => f x == f r) = some r := by
  induction users with
  | nil => cases hr
  | cons a t ih =>
    rw [List.map_cons, List.nodup_cons] at h
    rcases List.mem_cons.mp hr with rfl | hr
    · simp
    · have hne : f a ≠ f r := fun e => h.1 (e ▸ List.mem_map_of_mem f hr)
      simp [List.find?_cons, hne, ih h.2 hr]

theorem find_email_of_mem {users : List Row} (h : WF users) {r : Row} (hr : r ∈ users) :
    users.find? (fun x => x.email == r.email) = some r :=
  find_key_of_mem Row.email h.2 hr

theorem find_id_of_mem {users : List Row} (h : WF users) {r : Row} (hr : r ∈ users) :
    users.find? (fun x => x.id == r.id) = some r :=
  find_key_of_mem Row.id h.1 hr

/-! ## Create, then authenticate -/

/-- C1. On every table, for every name, every email no account of the table has, and
every password bcrypt hashes, with a bcrypt that verifies a password against its own
hash and a database that answers: `Insert` returns nil and adds one row, with the
name, the email and an id no account had; `Authenticate` with the email and the
password on the resulting table returns that id and nil. -/
theorem Insert_then_Authenticate (B : Bcrypt) (env env' : Env)
    (name email password h : String) (s : Sys)
    (hB : B.VerifiesOwnHash)
    (hfresh : ∀ r ∈ s.users, r.email ≠ email)
    (hhash : B.GenerateFromPassword env.salt password 12 = .ok h)
    (hexec : env.execFault = none) (hquery : env'.queryFault = none) :
    (UserModel.Insert B env name email password s).1 = none ∧
    ∃ row : Row,
      (UserModel.Insert B env name email password s).2.users = s.users ++ [row] ∧
      row.name = name ∧ row.email = email ∧ (∀ r ∈ s.users, r.id ≠ row.id) ∧
      (UserModel.Authenticate B env' email password
        (UserModel.Insert B env name email password s).2).1 = (row.id, none) := by
  rw [Insert_ok B env name email password h s hfresh hhash hexec]
  refine ⟨rfl, ⟨nextId s.users, name, email, h, env.now⟩, rfl, rfl, rfl, ?_, ?_⟩
  · intro r hr e
    have := id_lt_nextId hr
    simp only at e
    omega
  · apply Authenticate_found B env' email password _ _ hquery
    · simp [List.find?_append, find_email_none hfresh]
    · exact hB _ _ _ _ hhash

theorem toy_VerifiesOwnHash : toy.VerifiesOwnHash := by
  intro salt password cost h hgen
  simp only [toy] at hgen ⊢
  split at hgen
  · cases hgen
  · cases hgen
    have h4 : "$2a$".length = 4 := by decide
    simp [String.length_append, h4]

/-- C1 at the example of the spec: Alice is created in the empty table and
authenticates with the id 1. -/
theorem Insert_then_Authenticate_witness :
    (UserModel.Insert toy calm "Alice" "alice@example.com" "s3cret!" empty).1 = none ∧
    ∃ row : Row,
      (UserModel.Insert toy calm "Alice" "alice@example.com" "s3cret!" empty).2.users
        = empty.users ++ [row] ∧
      row.name = "Alice" ∧ row.email = "alice@example.com" ∧
      (∀ r ∈ empty.users, r.id ≠ row.id) ∧
      (UserModel.Authenticate toy calm "alice@example.com" "s3cret!"
        (UserModel.Insert toy calm "Alice" "alice@example.com" "s3cret!" empty).2).1
        = (row.id, none) :=
  Insert_then_Authenticate toy calm calm "Alice" "alice@example.com" "s3cret!" "$2a$s3cret!"
    empty toy_VerifiesOwnHash (by decide) rfl rfl rfl

theorem Authenticate_absent (B : Bcrypt) (env : Env) (email password : String) (s : Sys)
    (hquery : env.queryFault = none)
    (habsent : ∀ r ∈ s.users, r.email ≠ email) :
    (UserModel.Authenticate B env email password s).1 = (0, some Err.ErrInvvalidCredentials) := by
  simp [UserModel.Authenticate, QueryRowScan, hquery, find_email_none habsent]

theorem Authenticate_mismatch (B : Bcrypt) (env : Env) (email password : String) (s : Sys)
    (r : Row) (hquery : env.queryFault = none)
    (hfind : s.users.find? (fun r => r.email == email) = some r)
    (hcmp : B.CompareHashAndPassword r.hashed_password password = .mismatch) :
    (UserModel.Authenticate B env email password s).1 = (0, some Err.ErrInvvalidCredentials) := by
  simp [UserModel.Authenticate, QueryRowScan, hquery, hfind, CompareHashAndPassword, hcmp]

theorem Authenticate_error_zero (B : Bcrypt) (env : Env) (email password : String) (s : Sys)
    (herr : (UserModel.Authenticate B env email password s).1.2 ≠ none) :
    (UserModel.Authenticate B env email password s).1.1 = 0 := by
  revert herr
  unfold UserModel.Authenticate QueryRowScan CompareHashAndPassword
  cases env.queryFault with
  | some f => simp only; split <;> simp
  | none =>
    cases hf : s.users.find? (fun r => r.email == email) with
    | none => simp [hf]
    | some r =>
      cases hc : B.CompareHashAndPassword r.hashed_password password <;> simp [hf, hc]

/-! ## Authenticate does not tell an unknown email from a wrong password -/

/-- C2. With a database that answers: `Authenticate` returns `(0, ErrInvvalidCredentials)`
when no account of the table has the email, and returns `(0, ErrInvvalidCredentials)`
when an account has the email and bcrypt reports that the password does not match
its stored hash; the two results are equal; and whatever the table, the inputs and
the faults, an error is never returned together with an id other than 0. -/
theorem Authenticate_nondistinguishing (B : Bcrypt) (env env' : Env) (s s' : Sys)
    (email password email' password' : String) (r : Row)
    (hquery : env.queryFault = none) (hquery' : env'.queryFault = none)
    (habsent : ∀ x ∈ s.users, x.email ≠ email)
    (hwf : WF s'.users) (hr : r ∈ s'.users) (hemail : r.email = email')
    (hmis : B.CompareHashAndPassword r.hashed_password password' = .mismatch) :
    (UserModel.Authenticate B env email password s).1 = (0, some Err.ErrInvvalidCredentials) ∧
    (UserModel.Authenticate B env' email' password' s').1
      = (0, some Err.ErrInvvalidCredentials) ∧
    (UserModel.Authenticate B env email password s).1
      = (UserModel.Authenticate B env' email' password' s').1 ∧
    ∀ (B₀ : Bcrypt) (e : Env) (em pw : String) (t : Sys),
      (UserModel.Authenticate B₀ e em pw t).1.2 ≠ none →
        (UserModel.Authenticate B₀ e em pw t).1.1 = 0 := by
  have h1 := Authenticate_absent B env email password s hquery habsent
  have h2 := Authenticate_mismatch B env' email' password' s' r hquery'
    (hemail ▸ find_email_of_mem hwf hr) hmis
  exact ⟨h1, h2, h1.trans h2.symm, fun B₀ e em pw t => Authenticate_error_zero B₀ e em pw t⟩

/-- C2 at the example of the spec: on the table with Alice, an unknown email and
Alice's email with a wrong password are answered alike. -/
theorem Authenticate_nondistinguishing_witness :
    (UserModel.Authenticate toy calm "bob@example.com" "s3cret!" alice).1
      = (0, some Err.ErrInvvalidCredentials) ∧
    (UserModel.Authenticate toy calm "alice@example.com" "wrong" alice).1
      = (0, some Err.ErrInvvalidCredentials) ∧
    (UserModel.Authenticate toy calm "bob@example.com" "s3cret!" alice).1
      = (UserModel.Authenticate toy calm "alice@example.com" "wrong" alice).1 ∧
    ∀ (B₀ : Bcrypt) (e : Env) (em pw : String) (t : Sys),
      (UserModel.Authenticate B₀ e em pw t).1.2 ≠ none →
        (UserModel.Authenticate B₀ e em pw t).1.1 = 0 :=
  Authenticate_nondistinguishing toy calm calm alice alice
    "bob@example.com" "s3cret!" "alice@example.com" "wrong"
    ⟨1, "Alice", "alice@example.com", "$2a$s3cret!", 1700000000⟩
    rfl rfl (by decide) (by decide) (by decide) rfl rfl

theorem execs_append (a b : List Event) : execs (a ++ b) = execs a + execs b := by
  induction a with
  | nil => simp [execs]
  | cons e t ih => cases e <;> simp [execs, ih, Nat.add_right_comm]

theorem compares_append (a b : List Event) : compares (a ++ b) = compares a + compares b := by
  induction a with
  | nil => simp [compares]
  | cons e t ih => cases e <;> simp [compares, ih, Nat.add_right_comm]

theorem stdout_append (a b : List Event) : stdout (a ++ b) = stdout a ++ stdout b := by
  induction a with
  | nil => simp [stdout]
  | cons e t ih => cases e <;> simp [stdout, ih, String.append_assoc]

theorem ChangePassword_ok (B : Bcrypt) (env : Env) (id : Int) (password newpassword h : String)
    (s : Sys) (r : Row)
    (hquery : env.queryFault = none) (hexec : env.execFault = none)
    (hfind : s.users.find? (fun r => r.id == id) = some r)
    (hcmp : B.CompareHashAndPassword r.hashed_password password = .ok)
    (hhash : B.GenerateFromPassword env.salt newpassword 12 = .ok h) :
    UserModel.ChangePassword B env id password newpassword s =
      (none, ⟨s.users.map (fun x => if x.id == id then { x with hashed_password := h } else x),
        s.trace ++ [Event.QueryRow "SELECT hashed_password FROM users WHERE id = ?",
          Event.Println r.hashed_password,
          Event.CompareHashAndPassword r.hashed_password password,
          Event.GenerateFromPassword newpassword 12,
          Event.Exec "UPDATE users SET hashed_password =  ? WHERE id = ?"]⟩) := by
  simp [UserModel.ChangePassword, QueryRowScan, hquery, hfind, Println, CompareHashAndPassword,
    hcmp, GenerateFromPassword, hhash, Exec, hexec, updateHash]

theorem ChangePassword_mismatch (B : Bcrypt) (env : Env) (id : Int)
    (password newpassword : String) (s : Sys) (r : Row)
    (hquery : env.queryFault = none)
    (hfind : s.users.find? (fun r => r.id == id) = some r)
    (hcmp : B.CompareHashAndPassword r.hashed_password password = .mismatch) :
    UserModel.ChangePassword B env id password newpassword s =
      (some Err.ErrInvvalidCredentials, ⟨s.users,
        s.trace ++ [Event.QueryRow "SELECT hashed_password FROM users WHERE id = ?",
          Event.Println r.hashed_password,
          Event.CompareHashAndPassword r.hashed_password password]⟩) := by
  simp [UserModel.ChangePassword, QueryRowScan, hquery, hfind, Println, CompareHashAndPassword,
    hcmp]

theorem find_email_updateHash {users : List Row} {r : Row} (h : String) (id : Int)
    (hwf : WF users) (hr : r ∈ users) :
    (users.map (fun x => if x.id == id then { x with hashed_password := h } else x)).find?
        (fun x => x.email == r.email)
      = some (if r.id == id then { r with hashed_password := h } else r) := by
  rw [List.find?_map]
  have hp : ((fun x : Row => x.email == r.email) ∘
      fun x : Row => if x.id == id then { x with hashed_password := h } else x)
      = fun x : Row => x.email == r.email := by
    funext x
    simp only [Function.comp]
    split <;> rfl
  rw [hp, find_email_of_mem hwf hr]
  rfl

/-! ## Changing the password -/

theorem Authenticate_eval (B : Bcrypt) (env : Env) (email password : String) (s : Sys) (r : Row)
    (hquery : env.queryFault = none)
    (hfind : s.users.find? (fun r => r.email == email) = some r) :
    (UserModel.Authenticate B env email password s).1 =
      match B.CompareHashAndPassword r.hashed_password password with
      | .ok => (r.id, none)
      | .mismatch => (0, some Err.ErrInvvalidCredentials)
      | .fail msg => (0, some (Err.bcrypt msg)) := by
  cases hc : B.CompareHashAndPassword r.hashed_password password <;>
    simp [UserModel.Authenticate, QueryRowScan, hquery, hfind, CompareHashAndPassword, hc]

theorem cyclic_VerifiesOwnHash : cyclic.VerifiesOwnHash := by
  intro salt password cost h hgen
  simp only [cyclic] at hgen ⊢
  split at hgen
  · cases hgen
  · cases hgen
    have h4 : "$2a$".length = 4 := by decide
    simp [String.length_append, h4]

/-- C3, as the code has it. On every table with the keys of `users`, for every account
of it whose stored hash verifies `oldCorrect`, and every `newPw` that bcrypt hashes,
with a bcrypt that verifies a password against its own hash and a database that
answers: `ChangePassword(id, oldCorrect, newPw)` returns nil, and on the resulting
table `Authenticate(email, newPw)` returns `(id, nil)`; `Authenticate(email, oldCorrect)`
returns `(0, ErrInvvalidCredentials)` exactly when bcrypt reports that `oldCorrect` does
not match the new hash, and still returns `(id, nil)` when the new hash verifies
`oldCorrect`. -/
theorem ChangePassword_replaces_credential (B : Bcrypt) (env env₁ env₂ : Env) (s : Sys)
    (r : Row) (oldCorrect newPw h : String)
    (hB : B.VerifiesOwnHash)
    (hwf : WF s.users) (hr : r ∈ s.users)
    (hold : B.CompareHashAndPassword r.hashed_password oldCorrect = .ok)
    (hhash : B.GenerateFromPassword env.salt newPw 12 = .ok h)
    (hquery : env.queryFault = none) (hexec : env.execFault = none)
    (hquery₁ : env₁.queryFault = none) (hquery₂ : env₂.queryFault = none) :
    (UserModel.ChangePassword B env r.id oldCorrect newPw s).1 = none ∧
    (UserModel.Authenticate B env₁ r.email newPw
      (UserModel.ChangePassword B env r.id oldCorrect newPw s).2).1 = (r.id, none) ∧
    ((UserModel.Authenticate B env₂ r.email oldCorrect
        (UserModel.ChangePassword B env r.id oldCorrect newPw s).2).1
        = (0, some Err.ErrInvvalidCredentials) ↔
      B.CompareHashAndPassword h oldCorrect = .mismatch) ∧
    (B.CompareHashAndPassword h oldCorrect = .ok →
      (UserModel.Authenticate B env₂ r.email oldCorrect
        (UserModel.ChangePassword B env r.id oldCorrect newPw s).2).1 = (r.id, none)) := by
  rw [ChangePassword_ok B env r.id oldCorrect newPw h s r hquery hexec
    (find_id_of_mem hwf hr) hold hhash]
  have hfind := find_email_updateHash h r.id hwf hr
  simp only [beq_self_eq_true, if_true] at hfind
  have hev := Authenticate_eval B env₂ r.email oldCorrect
    ⟨s.users.map (fun x => if x.id == r.id then { x with hashed_password := h } else x),
      s.trace ++ [Event.QueryRow "SELECT hashed_password FROM users WHERE id = ?",
        Event.Println r.hashed_password,
        Event.CompareHashAndPassword r.hashed_password oldCorrect,
        Event.GenerateFromPassword newPw 12,
        Event.Exec "UPDATE users SET hashed_password =  ? WHERE id = ?"]⟩
    { r with hashed_password := h } hquery₂ hfind
  refine ⟨rfl, ?_, ?_, ?_⟩
  · exact Authenticate_found B env₁ r.email newPw _ { r with hashed_password := h } hquery₁
      hfind (hB _ _ _ _ hhash)
  · simp only at hev ⊢
    rw [hev]
    cases hc : B.CompareHashAndPassword h oldCorrect <;> simp
  · intro hc
    simp only at hev ⊢
    rw [hev, hc]

/-- C3 at an example: Alice changes `s3cret!` into `n3w!`, whose hash does not match
`s3cret!`. -/
theorem ChangePassword_replaces_credential_witness :
    (UserModel.ChangePassword toy calm 1 "s3cret!" "n3w!" alice).1 = none ∧
    (UserModel.Authenticate toy calm "alice@example.com" "n3w!"
      (UserModel.ChangePassword toy calm 1 "s3cret!" "n3w!" alice).2).1 = (1, none) ∧
    ((UserModel.Authenticate toy calm "alice@example.com" "s3cret!"
        (UserModel.ChangePassword toy calm 1 "s3cret!" "n3w!" alice).2).1
        = (0, some Err.ErrInvvalidCredentials) ↔
      toy.CompareHashAndPassword "$2a$n3w!" "s3cret!" = .mismatch) ∧
    (toy.CompareHashAndPassword "$2a$n3w!" "s3cret!" = .ok →
      (UserModel.Authenticate toy calm "alice@example.com" "s3cret!"
        (UserModel.ChangePassword toy calm 1 "s3cret!" "n3w!" alice).2).1 = (1, none)) :=
  ChangePassword_replaces_credential toy calm calm calm alice
    ⟨1, "Alice", "alice@example.com", "$2a$s3cret!", 1700000000⟩ "s3cret!" "n3w!" "$2a$n3w!"
    toy_VerifiesOwnHash (by decide) (by decide) rfl rfl rfl rfl rfl rfl

/-- C3 fails as stated. With a bcrypt that verifies a password against its own hash and
reads a password as the package does, on the table where Ann's stored hash verifies
`a`: the new password `a\x00a` is another password than `a` and is hashed,
`ChangePassword(1, a, a\x00a)` returns nil and the new password authenticates, yet
`Authenticate(email, a)` on the resulting table returns `(1, nil)`, not
`(0, ErrInvvalidCredentials)`. -/
theorem ChangePassword_old_password_survives :
    cyclic.VerifiesOwnHash ∧
    WF ann.users ∧
    cyclic.CompareHashAndPassword ("$2a$" ++ keyBytes "a") "a" = .ok ∧
    "a\x00a" ≠ "a" ∧
    cyclic.GenerateFromPassword calm.salt "a\x00a" 12 = .ok ("$2a$" ++ keyBytes "a\x00a") ∧
    (UserModel.ChangePassword cyclic calm 1 "a" "a\x00a" ann).1 = none ∧
    (UserModel.Authenticate cyclic calm "ann@example.com" "a\x00a"
      (UserModel.ChangePassword cyclic calm 1 "a" "a\x00a" ann).2).1 = (1, none) ∧
    (UserModel.Authenticate cyclic calm "ann@example.com" "a"
      (UserModel.ChangePassword cyclic calm 1 "a" "a\x00a" ann).2).1 = (1, none) ∧
    (UserModel.Authenticate cyclic calm "ann@example.com" "a"
      (UserModel.ChangePassword cyclic calm 1 "a" "a\x00a" ann).2).1
      ≠ (0, some Err.ErrInvvalidCredentials) :=
  ⟨cyclic_VerifiesOwnHash, by decide, by decide, by decide, rfl, by decide, by decide,
    by decide, by decide⟩

/-- C4. On every table with the keys of `users`, for every account of it and every
`oldWrong` that bcrypt reports as not matching the account's stored hash, with a
database that answers the query: `ChangePassword(id, oldWrong, newPw)` returns
`ErrInvvalidCredentials`, the table is the table before the call and no statement was
executed, so that `Authenticate(email, oldCorrect)` still returns `(id, nil)` for every
`oldCorrect` the stored hash verifies. -/
theorem ChangePassword_wrong_old_password (B : Bcrypt) (env env' : Env) (s : Sys)
    (r : Row) (oldWrong newPw oldCorrect : String)
    (hwf : WF s.users) (hr : r ∈ s.users)
    (hmis : B.CompareHashAndPassword r.hashed_password oldWrong = .mismatch)
    (hold : B.CompareHashAndPassword r.hashed_password oldCorrect = .ok)
    (hquery : env.queryFault = none) (hquery' : env'.queryFault = none) :
    (UserModel.ChangePassword B env r.id oldWrong newPw s).1
      = some Err.ErrInvvalidCredentials ∧
    (UserModel.ChangePassword B env r.id oldWrong newPw s).2.users = s.users ∧
    execs (UserModel.ChangePassword B env r.id oldWrong newPw s).2.trace = execs s.trace ∧
    (UserModel.Authenticate B env' r.email oldCorrect
      (UserModel.ChangePassword B env r.id oldWrong newPw s).2).1 = (r.id, none) := by
  rw [ChangePassword_mismatch B env r.id oldWrong newPw s r hquery (find_id_of_mem hwf hr) hmis]
  refine ⟨rfl, rfl, ?_, ?_⟩
  · simp [execs_append, execs]
  · exact Authenticate_found B env' r.email oldCorrect _ _ hquery'
      (find_email_of_mem hwf hr) hold

/-- C4 at an example: a wrong old password leaves Alice's password in place. -/
theorem ChangePassword_wrong_old_password_witness :
    (UserModel.ChangePassword toy calm 1 "guess" "n3w!" alice).1
      = some Err.ErrInvvalidCredentials ∧
    (UserModel.ChangePassword toy calm 1 "guess" "n3w!" alice).2.users = alice.users ∧
    execs (UserModel.ChangePassword toy calm 1 "guess" "n3w!" alice).2.trace
      = execs alice.trace ∧
    (UserModel.Authenticate toy calm "alice@example.com" "s3cret!"
      (UserModel.ChangePassword toy calm 1 "guess" "n3w!" alice).2).1 = (1, none) :=
  ChangePassword_wrong_old_password toy calm calm alice
    ⟨1, "Alice", "alice@example.com", "$2a$s3cret!", 1700000000⟩ "guess" "n3w!" "s3cret!"
    (by decide) (by decide) rfl rfl rfl rfl

theorem occursIn_of_isPrefixOf (sub l : List Char) (h : sub.isPrefixOf l = true) :
    occursIn sub l = true := by
  cases l with
  | nil => simpa [occursIn] using h
  | cons c cs => simp [occursIn, h]

theorem occursIn_append (sub a b : List Char) : occursIn sub (a ++ (sub ++ b)) = true := by
  induction a with
  | nil =>
    apply occursIn_of_isPrefixOf
    simp [List.isPrefixOf_iff_prefix]
  | cons c cs ih => simp [occursIn, ih]

theorem Contains_duplicate_message (email : String) :
    strings.Contains
      ("Duplicate entry '" ++ email ++ "' for key '" ++ "users_uc_email" ++ "'")
      "users_uc_email" = true := by
  unfold strings.Contains
  simp only [String.data_append]
  rw [List.append_assoc]
  exact occursIn_append _ _ _

theorem Insert_duplicate (B : Bcrypt) (env : Env) (name email password h : String) (s : Sys)
    (hused : ∃ r ∈ s.users, r.email = email)
    (hhash : B.GenerateFromPassword env.salt password 12 = .ok h)
    (hexec : env.execFault = none) :
    UserModel.Insert B env name email password s =
      (some Err.ErrDuplicateEmail, ⟨s.users,
        s.trace ++ [Event.GenerateFromPassword password 12] ++
          [Event.Exec "INSERT INTO users (name, email, hashed_password, created)\n\tVALUES(?,?,?,UTC_TIMESTAMP())"]⟩) := by
  have hany : s.users.any (fun r => r.email == email) = true := by
    simpa [List.any_eq_true] using hused
  simp [UserModel.Insert, GenerateFromPassword, hhash, Exec, hexec, insertUser, hany,
    Contains_duplicate_message]

theorem Insert_hash_error (B : Bcrypt) (env : Env) (name email password msg : String) (s : Sys)
    (hhash : B.GenerateFromPassword env.salt password 12 = .error msg) :
    UserModel.Insert B env name email password s =
      (some (Err.bcrypt msg), ⟨s.users, s.trace ++ [Event.GenerateFromPassword password 12]⟩) := by
  simp [UserModel.Insert, GenerateFromPassword, hhash]

theorem Insert_fault (B : Bcrypt) (env : Env) (name email password h : String) (s : Sys)
    (f : Fault)
    (hhash : B.GenerateFromPassword env.salt password 12 = .ok h)
    (hexec : env.execFault = some f)
    (hother : ∀ msg, f = Fault.MySQLError 1062 msg → strings.Contains msg "users_uc_email" = false) :
    UserModel.Insert B env name email password s =
      (some f.toErr, ⟨s.users,
        s.trace ++ [Event.GenerateFromPassword password 12] ++
          [Event.Exec "INSERT INTO users (name, email, hashed_password, created)\n\tVALUES(?,?,?,UTC_TIMESTAMP())"]⟩) := by
  cases f with
  | driver msg => simp [UserModel.Insert, GenerateFromPassword, hhash, Exec, hexec, Fault.toErr]
  | MySQLError n msg =>
    by_cases hn : n = 1062
    · subst hn
      simp [UserModel.Insert, GenerateFromPassword, hhash, Exec, hexec, Fault.toErr,
        hother msg rfl]
    · simp [UserModel.Insert, GenerateFromPassword, hhash, Exec, hexec, Fault.toErr, hn]

/-! ## A duplicate email -/

/-- C5. (1) When an account of the table already has the email, bcrypt hashes the
password and the statement reaches the table, the table rejects it with error 1062 on
`users_uc_email` and `Insert` returns `ErrDuplicateEmail`, the table unchanged.
(2) Two successive `Insert` with one email that no account had return nil, then
`ErrDuplicateEmail`. (3) A failure of bcrypt is returned as it is, and (4) so is any
fault of the statement other than error 1062 naming `users_uc_email`: both are errors
other than `ErrDuplicateEmail`, and the table is unchanged. -/
theorem Insert_duplicate_email (B : Bcrypt)
    (env₁ : Env) (name₁ email₁ password₁ h₁ : String) (s₁ : Sys)
    (hused : ∃ r ∈ s₁.users, r.email = email₁)
    (hhash₁ : B.GenerateFromPassword env₁.salt password₁ 12 = .ok h₁)
    (hexec₁ : env₁.execFault = none)
    (env₂ env₅ : Env) (name₂ name₅ email₂ password₂ password₅ h₂ h₅ : String) (s₂ : Sys)
    (hfresh : ∀ r ∈ s₂.users, r.email ≠ email₂)
    (hhash₂ : B.GenerateFromPassword env₂.salt password₂ 12 = .ok h₂)
    (hhash₅ : B.GenerateFromPassword env₅.salt password₅ 12 = .ok h₅)
    (hexec₂ : env₂.execFault = none) (hexec₅ : env₅.execFault = none)
    (env₃ : Env) (name₃ email₃ password₃ msg₃ : String) (s₃ : Sys)
    (hhash₃ : B.GenerateFromPassword env₃.salt password₃ 12 = .error msg₃)
    (env₄ : Env) (name₄ email₄ password₄ h₄ : String) (s₄ : Sys) (f : Fault)
    (hhash₄ : B.GenerateFromPassword env₄.salt password₄ 12 = .ok h₄)
    (hexec₄ : env₄.execFault = some f)
    (hother : ∀ msg, f = Fault.MySQLError 1062 msg →
      strings.Contains msg "users_uc_email" = false) :
    ((UserModel.Insert B env₁ name₁ email₁ password₁ s₁).1 = some Err.ErrDuplicateEmail ∧
      (UserModel.Insert B env₁ name₁ email₁ password₁ s₁).2.users = s₁.users) ∧
    ((UserModel.Insert B env₂ name₂ email₂ password₂ s₂).1 = none ∧
      (UserModel.Insert B env₅ name₅ email₂ password₅
        (UserModel.Insert B env₂ name₂ email₂ password₂ s₂).2).1
        = some Err.ErrDuplicateEmail ∧
      (UserModel.Insert B env₅ name₅ email₂ password₅
        (UserModel.Insert B env₂ name₂ email₂ password₂ s₂).2).2.users
        = (UserModel.Insert B env₂ name₂ email₂ password₂ s₂).2.users) ∧
    ((UserModel.Insert B env₃ name₃ email₃ password₃ s₃).1 = some (Err.bcrypt msg₃) ∧
      (UserModel.Insert B env₃ name₃ email₃ password₃ s₃).1 ≠ some Err.ErrDuplicateEmail ∧
      (UserModel.Insert B env₃ name₃ email₃ password₃ s₃).2.users = s₃.users) ∧
    ((UserModel.Insert B env₄ name₄ email₄ password₄ s₄).1 = some f.toErr ∧
      (UserModel.Insert B env₄ name₄ email₄ password₄ s₄).1 ≠ some Err.ErrDuplicateEmail ∧
      (UserModel.Insert B env₄ name₄ email₄ password₄ s₄).2.users = s₄.users) := by
  refine ⟨?_, ?_, ?_, ?_⟩
  · rw [Insert_duplicate B env₁ name₁ email₁ password₁ h₁ s₁ hused hhash₁ hexec₁]
    exact ⟨rfl, rfl⟩
  · rw [Insert_ok B env₂ name₂ email₂ password₂ h₂ s₂ hfresh hhash₂ hexec₂]
    rw [Insert_duplicate B env₅ name₅ email₂ password₅ h₅ _
      ⟨⟨nextId s₂.users, name₂, email₂, h₂, env₂.now⟩, by simp, rfl⟩ hhash₅ hexec₅]
    exact ⟨rfl, rfl, rfl⟩
  · rw [Insert_hash_error B env₃ name₃ email₃ password₃ msg₃ s₃ hhash₃]
    exact ⟨rfl, by simp, rfl⟩
  · rw [Insert_fault B env₄ name₄ email₄ password₄ h₄ s₄ f hhash₄ hexec₄ hother]
    refine ⟨rfl, ?_, rfl⟩
    cases f <;> simp [Fault.toErr]

/-- C5 at examples: Alice's email a second time, Bob's email twice, a password that
is too long, and a lost connection. -/
theorem Insert_duplicate_email_witness :
    ((UserModel.Insert toy calm "Al" "alice@example.com" "pw" alice).1
        = some Err.ErrDuplicateEmail ∧
      (UserModel.Insert toy calm "Al" "alice@example.com" "pw" alice).2.users = alice.users) ∧
    ((UserModel.Insert toy calm "Bob" "bob@example.com" "b0b" alice).1 = none ∧
      (UserModel.Insert toy calm "Rob" "bob@example.com" "r0b"
        (UserModel.Insert toy calm "Bob" "bob@example.com" "b0b" alice).2).1
        = some Err.ErrDuplicateEmail ∧
      (UserModel.Insert toy calm "Rob" "bob@example.com" "r0b"
        (UserModel.Insert toy calm "Bob" "bob@example.com" "b0b" alice).2).2.users
        = (UserModel.Insert toy calm "Bob" "bob@example.com" "b0b" alice).2.users) ∧
    ((UserModel.Insert toy calm "Eve" "eve@example.com" longPassword alice).1
        = some (Err.bcrypt "bcrypt: password length exceeds 72 bytes") ∧
      (UserModel.Insert toy calm "Eve" "eve@example.com" longPassword alice).1
        ≠ some Err.ErrDuplicateEmail ∧
      (UserModel.Insert toy calm "Eve" "eve@example.com" longPassword alice).2.users
        = alice.users) ∧
    ((UserModel.Insert toy stormy "Eve" "eve@example.com" "pw" alice).1
        = some (Fault.driver "driver: bad connection").toErr ∧
      (UserModel.Insert toy stormy "Eve" "eve@example.com" "pw" alice).1
        ≠ some Err.ErrDuplicateEmail ∧
      (UserModel.Insert toy stormy "Eve" "eve@example.com" "pw" alice).2.users
        = alice.users) :=
  Insert_duplicate_email toy
    calm "Al" "alice@example.com" "pw" "$2a$pw" alice
    ⟨⟨1, "Alice", "alice@example.com", "$2a$s3cret!", 1700000000⟩, by decide, rfl⟩ rfl rfl
    calm calm "Bob" "Rob" "bob@example.com" "b0b" "r0b" "$2a$b0b" "$2a$r0b" alice
    (by decide) rfl rfl rfl rfl
    calm "Eve" "eve@example.com" longPassword "bcrypt: password length exceeds 72 bytes" alice
    rfl
    stormy "Eve" "eve@example.com" "pw" "$2a$pw" alice (Fault.driver "driver: bad connection")
    rfl rfl (fun _ e => nomatch e)

/-! ## The calls each method makes -/

theorem Authenticate_snd (B : Bcrypt) (env : Env) (email password : String) (s : Sys) :
    (UserModel.Authenticate B env email password s).2 =
      ⟨s.users, s.trace ++
        Event.QueryRow "SELECT id, hashed_password FROM users WHERE email = ?" ::
          match env.queryFault, s.users.find? (fun r => r.email == email) with
          | none, some r => [Event.CompareHashAndPassword r.hashed_password password]
          | _, _ => []⟩ := by
  unfold UserModel.Authenticate QueryRowScan CompareHashAndPassword
  cases env.queryFault with
  | some f => simp only; split <;> rfl
  | none =>
    cases hf : s.users.find? (fun r => r.email == email) with
    | none => simp [hf]
    | some r =>
      cases hc : B.CompareHashAndPassword r.hashed_password password <;> simp [hf, hc]

theorem Exists_snd (env : Env) (id : Int) (s : Sys) :
    (UserModel.Exists env id s).2 =
      ⟨s.users, s.trace ++
        [Event.QueryRow "SELECT EXISTS(SELECT true FROM users WHERE id = ?)"]⟩ := by
  unfold UserModel.Exists QueryRowScan
  cases env.queryFault <;> rfl

theorem Retrieve_snd (env : Env) (id : Int) (s : Sys) :
    (UserModel.Retrieve env id s).2 =
      ⟨s.users, s.trace ++
        [Event.QueryRow "SELECT name, email, created FROM users WHERE id = ?"]⟩ := by
  unfold UserModel.Retrieve QueryRowScan
  cases env.queryFault with
  | some f => simp only; split <;> rfl
  | none =>
    cases hf : s.users.find? (fun r => r.id == id) with
    | none => simp [hf]
    | some r => simp [hf]

/-! ## The hash comparison of Authenticate -/

/-- C6, as the code has it. On every table and for every email and password,
`Authenticate` calls `bcrypt.CompareHashAndPassword` once when its query is answered
and an account has the email, and not at all otherwise: an unknown email is answered
without any comparison. -/
theorem Authenticate_compares (B : Bcrypt) (env : Env) (email password : String) (s : Sys) :
    compares (UserModel.Authenticate B env email password s).2.trace =
      compares s.trace +
        if env.queryFault = none ∧ (s.users.any fun r => r.email == email) = true then 1
        else 0 := by
  rw [Authenticate_snd]
  simp only [compares_append, compares]
  cases env.queryFault with
  | some f => simp [compares]
  | none =>
    cases hf : s.users.find? (fun r => r.email == email) with
    | none =>
      have : (s.users.any fun r => r.email == email) = false := by
        rw [List.find?_eq_none] at hf
        simpa [List.any_eq_false] using hf
      simp [this, compares]
    | some r =>
      have : (s.users.any fun r => r.email == email) = true := by
        rw [List.any_eq_true]
        exact ⟨r, List.mem_of_find?_eq_some hf, List.find?_some (p := fun x : Row => x.email == email) hf⟩
      simp [this, compares]

/-- C6 fails as stated: with the same email and password, `Authenticate` makes no
hash comparison on the empty table, where no account has the email, and one on the
table where Alice has it. -/
theorem Authenticate_compares_differ :
    compares (UserModel.Authenticate toy calm "alice@example.com" "s3cret!" empty).2.trace = 0 ∧
    compares (UserModel.Authenticate toy calm "alice@example.com" "s3cret!" alice).2.trace = 1 ∧
    (∀ r ∈ empty.users, r.email ≠ "alice@example.com") ∧
    (∃ r ∈ alice.users, r.email = "alice@example.com") ∧
    compares (UserModel.Authenticate toy calm "alice@example.com" "s3cret!" empty).2.trace ≠
      compares (UserModel.Authenticate toy calm "alice@example.com" "s3cret!" alice).2.trace := by
  decide

theorem Insert_cases (B : Bcrypt) (env : Env) (name email password : String) (s : Sys) :
    ((UserModel.Insert B env name email password s).1 = none ∧
      (∀ r ∈ s.users, r.email ≠ email) ∧
      ∃ h, (UserModel.Insert B env name email password s).2.users
        = s.users ++ [⟨nextId s.users, name, email, h, env.now⟩]) ∨
    ((UserModel.Insert B env name email password s).1 ≠ none ∧
      (UserModel.Insert B env name email password s).2.users = s.users) := by
  unfold UserModel.Insert GenerateFromPassword Exec insertUser
  cases hg : B.GenerateFromPassword env.salt password 12 with
  | error msg => simp
  | ok h =>
    cases hx : env.execFault with
    | some f =>
      cases f with
      | driver msg => simp [Fault.toErr]
      | MySQLError n msg =>
        simp only [Fault.toErr]
        split <;> simp
    | none =>
      cases ha : s.users.any (fun r => r.email == email) with
      | true => simp [ha, Contains_duplicate_message]
      | false =>
        have hfresh : ∀ r ∈ s.users, r.email ≠ email := by
          simpa [List.any_eq_false] using ha
        simp [ha]
        exact hfresh

theorem Insert_stdout (B : Bcrypt) (env : Env) (name email password : String) (s : Sys) :
    stdout (UserModel.Insert B env name email password s).2.trace = stdout s.trace := by
  unfold UserModel.Insert GenerateFromPassword Exec insertUser
  cases hg : B.GenerateFromPassword env.salt password 12 with
  | error msg => simp [stdout_append, stdout]
  | ok h =>
    cases hx : env.execFault with
    | some f =>
      cases f with
      | driver msg => simp [Fault.toErr, stdout_append, stdout]
      | MySQLError n msg =>
        simp only [Fault.toErr]
        split <;> simp [stdout_append, stdout]
    | none =>
      cases ha : s.users.any (fun r => r.email == email) with
      | true => simp [ha, Contains_duplicate_message, stdout_append, stdout]
      | false => simp [ha, stdout_append, stdout]

theorem ChangePassword_cases (B : Bcrypt) (env : Env) (id : Int) (password newpassword : String)
    (s : Sys) :
    ((UserModel.ChangePassword B env id password newpassword s).2.users = s.users ∨
      ∃ h, (UserModel.ChangePassword B env id password newpassword s).2.users
        = s.users.map (fun x => if x.id == id then { x with hashed_password := h } else x)) ∧
    stdout (UserModel.ChangePassword B env id password newpassword s).2.trace
      = stdout s.trace ++
        ((match env.queryFault, s.users.find? (fun r => r.id == id) with
          | none, some r => r.hashed_password
          | _, _ => "") ++ "\n") := by
  cases hq : env.queryFault with
  | some f =>
    simp only [UserModel.ChangePassword, QueryRowScan, Println, hq]
    split <;> simp [stdout_append, stdout]
  | none =>
    cases hf : s.users.find? (fun r => r.id == id) with
    | none => simp [UserModel.ChangePassword, QueryRowScan, Println, hq, hf, stdout_append, stdout]
    | some r =>
      cases hc : B.CompareHashAndPassword r.hashed_password password with
      | mismatch =>
        simp [UserModel.ChangePassword, QueryRowScan, Println, CompareHashAndPassword, hq, hf,
          hc, stdout_append, stdout]
      | fail msg =>
        simp [UserModel.ChangePassword, QueryRowScan, Println, CompareHashAndPassword, hq, hf,
          hc, stdout_append, stdout]
      | ok =>
        cases hg : B.GenerateFromPassword env.salt newpassword 12 with
        | error msg =>
          simp [UserModel.ChangePassword, QueryRowScan, Println, CompareHashAndPassword,
            GenerateFromPassword, hq, hf, hc, hg, stdout_append, stdout]
        | ok h =>
          cases hx : env.execFault with
          | some f =>
            simp [UserModel.ChangePassword, QueryRowScan, Println, CompareHashAndPassword,
              GenerateFromPassword, Exec, hq, hf, hc, hg, hx, stdout_append, stdout]
          | none =>
            rw [ChangePassword_ok B env id password newpassword h s r hq hx hf hc hg]
            exact ⟨Or.inr ⟨h, rfl⟩, by simp [stdout_append, stdout]⟩

theorem Authenticate_stdout (B : Bcrypt) (env : Env) (email password : String) (s : Sys) :
    stdout (UserModel.Authenticate B env email password s).2.trace = stdout s.trace := by
  rw [Authenticate_snd]
  simp only [stdout_append, stdout]
  split <;> simp [stdout]

theorem Exists_stdout (env : Env) (id : Int) (s : Sys) :
    stdout (UserModel.Exists env id s).2.trace = stdout s.trace := by
  rw [Exists_snd]
  simp [stdout_append, stdout]

theorem Retrieve_stdout (env : Env) (id : Int) (s : Sys) :
    stdout (UserModel.Retrieve env id s).2.trace = stdout s.trace := by
  rw [Retrieve_snd]
  simp [stdout_append, stdout]

/-- Whatever its inputs, `ChangePassword` writes one line to standard output: the
hash it read for the account, or the empty line when it read none. -/
theorem ChangePassword_stdout (B : Bcrypt) (env : Env) (id : Int)
    (password newpassword : String) (s : Sys) :
    stdout (UserModel.ChangePassword B env id password newpassword s).2.trace
      = stdout s.trace ++
        ((match env.queryFault, s.users.find? (fun r => r.id == id) with
          | none, some r => r.hashed_password
          | _, _ => "") ++ "\n") :=
  (ChangePassword_cases B env id password newpassword s).2

/-! ## What reaches standard output -/

/-- C7, evaluated. `ChangePassword` writes the stored hash of the account to standard
output: starting from an empty output, the output after changing Alice's password is
her stored hash and a newline, also when the old password given is wrong; for an id
no account has it is an empty line. The claim asks for an empty output. -/
theorem ChangePassword_prints_stored_hash :
    stdout alice.trace = "" ∧
    stdout (UserModel.ChangePassword toy calm 1 "s3cret!" "n3w!" alice).2.trace
      = "$2a$s3cret!\n" ∧
    stdout (UserModel.ChangePassword toy calm 1 "guess" "n3w!" alice).2.trace
      = "$2a$s3cret!\n" ∧
    stdout (UserModel.ChangePassword toy calm 2 "s3cret!" "n3w!" alice).2.trace = "\n" := by
  decide

/-! ## Retrieve and Exists -/

/-- C8. With a database that answers the query: on every table with the keys of
`users`, for an account of it, `Retrieve` of its id returns a user and nil, the
user's `Name`, `Email` and `Created` being the account's name, email and created and
its `HashedPassword` empty; on every table, the empty one included, for an id no
account of it has, `Retrieve` returns no user and `ErrNoRecord`. -/
theorem Retrieve_profile (env : Env) (s : Sys) (r : Row) (s' : Sys) (id : Int)
    (hquery : env.queryFault = none)
    (hwf : WF s.users) (hr : r ∈ s.users)
    (habsent : ∀ x ∈ s'.users, x.id ≠ id) :
    (∃ user : User, (UserModel.Retrieve env r.id s).1 = (some user, none) ∧
      user.Name = r.name ∧ user.Email = r.email ∧ user.Created = r.created ∧
      user.HashedPassword = "") ∧
    (UserModel.Retrieve env id s').1 = (none, some Err.ErrNoRecord) := by
  constructor
  · refine ⟨{ User.zero with Name := r.name, Email := r.email, Created := r.created },
      ?_, rfl, rfl, rfl, rfl⟩
    simp [UserModel.Retrieve, QueryRowScan, hquery, find_id_of_mem hwf hr]
  · simp [UserModel.Retrieve, QueryRowScan, hquery, find_id_none habsent]

/-- C8 at an example: Alice's profile on the table with Alice, and the id 1 on the
empty table. -/
theorem Retrieve_profile_witness :
    (∃ user : User, (UserModel.Retrieve calm 1 alice).1 = (some user, none) ∧
      user.Name = "Alice" ∧ user.Email = "alice@example.com" ∧ user.Created = 1700000000 ∧
      user.HashedPassword = "") ∧
    (UserModel.Retrieve calm 1 empty).1 = (none, some Err.ErrNoRecord) :=
  Retrieve_profile calm alice ⟨1, "Alice", "alice@example.com", "$2a$s3cret!", 1700000000⟩
    empty 1 rfl (by decide) (by decide) (by decide)

/-- C9. On every table and for every id, when the query does not fail, `Exists`
returns `(true, nil)` if and only if an account of the table has the id, and
`(false, nil)` otherwise; it returns `(true, nil)` for the id of the account that an
`Insert` returning nil has just added, an id no account had before. -/
theorem Exists_decides (B : Bcrypt) (env env₀ : Env) (id : Int)
    (name email password : String) (s : Sys)
    (hquery : env.queryFault = none)
    (hins : (UserModel.Insert B env₀ name email password s).1 = none) :
    ((UserModel.Exists env id s).1 = (true, none) ↔ ∃ r ∈ s.users, r.id = id) ∧
    ((UserModel.Exists env id s).1 = (false, none) ↔ ¬ ∃ r ∈ s.users, r.id = id) ∧
    ∃ row : Row, (UserModel.Insert B env₀ name email password s).2.users = s.users ++ [row] ∧
      (UserModel.Exists env row.id s).1 = (false, none) ∧
      (UserModel.Exists env row.id (UserModel.Insert B env₀ name email password s).2).1
        = (true, none) := by
  have hex : ∀ (i : Int) (t : Sys),
      (UserModel.Exists env i t).1 = (t.users.any (fun r => r.id == i), none) := by
    intro i t
    simp [UserModel.Exists, QueryRowScan, hquery]
  refine ⟨?_, ?_, ?_⟩
  · rw [hex]
    simp [List.any_eq_true]
  · rw [hex]
    simp [List.any_eq_false]
  · rcases Insert_cases B env₀ name email password s with ⟨_, _, h, hu⟩ | ⟨hne, _⟩
    · refine ⟨_, hu, ?_, ?_⟩
      · rw [hex]
        have : ∀ r ∈ s.users, r.id ≠ nextId s.users := fun r hr e => by
          have := id_lt_nextId hr
          omega
        simpa [List.any_eq_false] using this
      · rw [hex, hu]
        simp
    · exact absurd hins hne

/-- C9 at an example: Bob is added to the table with Alice and gets the id 2. -/
theorem Exists_decides_witness :
    ((UserModel.Exists calm 1 alice).1 = (true, none) ↔ ∃ r ∈ alice.users, r.id = 1) ∧
    ((UserModel.Exists calm 1 alice).1 = (false, none) ↔ ¬ ∃ r ∈ alice.users, r.id = 1) ∧
    ∃ row : Row,
      (UserModel.Insert toy calm "Bob" "bob@example.com" "b0b" alice).2.users
        = alice.users ++ [row] ∧
      (UserModel.Exists calm row.id alice).1 = (false, none) ∧
      (UserModel.Exists calm row.id
        (UserModel.Insert toy calm "Bob" "bob@example.com" "b0b" alice).2).1 = (true, none) :=
  Exists_decides toy calm calm 1 "Bob" "bob@example.com" "b0b" alice rfl rfl

/-! ## Frame -/

theorem forall₂_map_self {R : Row → Row → Prop} (f : Row → Row) (l : List Row)
    (h : ∀ a, R a (f a)) : List.Forall₂ R l (l.map f) := by
  induction l with
  | nil => exact List.Forall₂.nil
  | cons a t ih => exact List.Forall₂.cons (h a) ih

/-- The keys of `users` hold of the empty table. -/
theorem WF_nil : WF [] := by decide

/-- The keys of `users` are kept by `Insert`. -/
theorem WF_Insert (B : Bcrypt) (env : Env) (name email password : String) (s : Sys)
    (hwf : WF s.users) : WF (UserModel.Insert B env name email password s).2.users := by
  rcases Insert_cases B env name email password s with ⟨_, hfresh, h, hu⟩ | ⟨_, hu⟩
  · rw [hu]
    unfold WF at hwf ⊢
    simp only [List.map_append, List.map_cons, List.map_nil]
    refine ⟨List.Nodup.append hwf.1 (List.nodup_singleton _) ?_,
      List.Nodup.append hwf.2 (List.nodup_singleton _) ?_⟩
    · rw [List.disjoint_singleton]
      intro hm
      rcases List.mem_map.mp hm with ⟨r, hr, e⟩
      have := id_lt_nextId hr
      omega
    · rw [List.disjoint_singleton]
      intro hm
      rcases List.mem_map.mp hm with ⟨r, hr, e⟩
      exact hfresh r hr e
  · rw [hu]
    exact hwf

/-- The keys of `users` are kept by `ChangePassword`. -/
theorem WF_ChangePassword (B : Bcrypt) (env : Env) (id : Int) (password newpassword : String)
    (s : Sys) (hwf : WF s.users) :
    WF (UserModel.ChangePassword B env id password newpassword s).2.users := by
  rcases (ChangePassword_cases B env id password newpassword s).1 with hu | ⟨h, hu⟩
  · rw [hu]
    exact hwf
  · rw [hu]
    unfold WF at hwf ⊢
    have hid : (fun x : Row => (if x.id == id then { x with hashed_password := h } else x).id)
        = Row.id := by
      funext x
      split <;> rfl
    have hem : (fun x : Row => (if x.id == id then { x with hashed_password := h } else x).email)
        = Row.email := by
      funext x
      split <;> rfl
    simp only [List.map_map, Function.comp_def, hid, hem]
    exact hwf

/-- C10. On every table and for every input, faults included: `Authenticate`,
`Exists` and `Retrieve` leave the table as it is; `ChangePassword(id, ...)` leaves
the rows in place, each with its id, name, email and created, and every row whose id
is not `id` wholly unchanged; `Insert` leaves the table as it is or adds one row
behind the rows that were there, with an id and an email that none of them had. -/
theorem methods_frame (B : Bcrypt) (env : Env) (s : Sys) (id : Int)
    (name email password newpassword : String) :
    (UserModel.Authenticate B env email password s).2.users = s.users ∧
    (UserModel.Exists env id s).2.users = s.users ∧
    (UserModel.Retrieve env id s).2.users = s.users ∧
    List.Forall₂
      (fun a b => b.id = a.id ∧ b.name = a.name ∧ b.email = a.email ∧ b.created = a.created ∧
        (a.id ≠ id → b = a))
      s.users (UserModel.ChangePassword B env id password newpassword s).2.users ∧
    ((UserModel.Insert B env name email password s).2.users = s.users ∨
      ∃ row : Row, (UserModel.Insert B env name email password s).2.users = s.users ++ [row] ∧
        ∀ r ∈ s.users, r.id ≠ row.id ∧ r.email ≠ row.email) := by
  refine ⟨?_, ?_, ?_, ?_, ?_⟩
  · rw [Authenticate_snd]
  · rw [Exists_snd]
  · rw [Retrieve_snd]
  · rcases (ChangePassword_cases B env id password newpassword s).1 with hu | ⟨h, hu⟩
    · rw [hu]
      simp
    · rw [hu]
      apply forall₂_map_self
      intro a
      by_cases ha : a.id = id
      · simp [ha]
      · simp [ha]
  · rcases Insert_cases B env name email password s with ⟨_, hfresh, h, hu⟩ | ⟨_, hu⟩
    · refine Or.inr ⟨_, hu, fun r hr => ⟨?_, hfresh r hr⟩⟩
      have := id_lt_nextId hr
      simp only
      omega
    · exact Or.inl hu

end models
